import Mathlib

/-!
Shallow embedding of the face-tracking servo control core
(`face_tracker_servo.py`): the `ServoController` state and its operations
(`set_angle`, `track_face`, `center_servo`), the hardware duty-cycle
command path, the per-tick orchestration of `FaceTrackerThread.run`
(largest-face selection and signal emission), and the shutdown path
(`FaceTrackerThread.stop`, `FaceTrackerServoApp.stop_tracking`,
`closeEvent`).  Python floats are modelled as exact rationals; Python's
floor division `//` on integers is `Int.fdiv`; Python's true division `/`
is rational division, with the `ZeroDivisionError` case made explicit as
an outcome value.
-/

namespace FaceTrackerServo

/-- Python's builtin `max` on two rationals, written as an `if` so that
it evaluates by kernel reduction. -/
def pymax (a b : ℚ) : ℚ := if a ≤ b then b else a

/-- Python's builtin `min` on two rationals, written as an `if` so that
it evaluates by kernel reduction. -/
def pymin (a b : ℚ) : ℚ := if a ≤ b then a else b

lemma pymax_eq_max (a b : ℚ) : pymax a b = max a b := (max_def a b).symm

lemma pymin_eq_min (a b : ℚ) : pymin a b = min a b := (min_def a b).symm

/-- The mutable state of a `ServoController` instance: configuration
angles, the current angle, and the tuning constants that `__init__`
assigns (`smoothing_factor`, `dead_zone`, `max_speed`). -/
structure ServoState where
  pin : Int
  min_angle : ℚ
  max_angle : ℚ
  center_angle : ℚ
  current_angle : ℚ
  smoothing_factor : ℚ
  dead_zone : Int
  max_speed : ℚ
deriving DecidableEq, Repr

/-- `ServoController.__init__(pin, min_angle, max_angle, center_angle)`:
`current_angle` starts at `center_angle`; the tuning constants are fixed
at `smoothing_factor = 0.3`, `dead_zone = 20`, `max_speed = 2`. -/
def mkServoController (pin : Int) (min_angle max_angle center_angle : ℚ) :
    ServoState :=
  { pin := pin
    min_angle := min_angle
    max_angle := max_angle
    center_angle := center_angle
    current_angle := center_angle
    smoothing_factor := 3/10
    dead_zone := 20
    max_speed := 2 }

/-- `ServoController.set_angle(angle)`: clamp the angle to
`[min_angle, max_angle]` (Python `max(self.min_angle, min(self.max_angle,
angle))`) and store it as `current_angle`. -/
def set_angle (s : ServoState) (angle : ℚ) : ServoState :=
  { s with current_angle := pymax s.min_angle (pymin s.max_angle angle) }

/-- The duty-cycle commands `set_angle` issues in hardware mode, in order:
`ChangeDutyCycle((angle/180)*10 + 2.5)` on the clamped angle, then after
the settle hold `ChangeDutyCycle(0)`. -/
def set_angle_commands (s : ServoState) (angle : ℚ) : List ℚ :=
  let a := pymax s.min_angle (pymin s.max_angle angle)
  [(a / 180) * 10 + 5/2, 0]

/-- How a `track_face` call ends: early return inside the dead zone, a
Python `ZeroDivisionError` (when `frame_width // 2 = 0` and the dead-zone
check did not fire), or a completed move through `set_angle`. -/
inductive TickOutcome
  | skipped
  | zeroDivError
  | moved
deriving DecidableEq, Repr

/-- `ServoController.track_face(face_x, face_y, frame_width,
frame_height)`: `frame_center_x = frame_width // 2` (floor division),
`offset_x = face_x - frame_center_x`; return unchanged when
`|offset_x| < dead_zone`; otherwise `angle_change =
(offset_x / frame_center_x) * (max_angle - min_angle) * 0.5`,
`target_angle = center_angle - angle_change` (no clamp in the source),
`angle_diff` clamped to `[-max_speed, max_speed]`, and
`set_angle(current_angle + angle_diff * smoothing_factor)`.  The division
raises `ZeroDivisionError` when `frame_center_x = 0`, in which case the
state is left unchanged.  `face_y` and `frame_height` are accepted but
never read, as in the source. -/
def track_face (s : ServoState) (face_x face_y frame_width frame_height : Int) :
    ServoState × TickOutcome :=
  let frame_center_x : Int := Int.fdiv frame_width 2
  let offset_x : Int := face_x - frame_center_x
  if |offset_x| < s.dead_zone then (s, .skipped)
  else if frame_center_x = 0 then (s, .zeroDivError)
  else
    let angle_change : ℚ :=
      ((offset_x : ℚ) / (frame_center_x : ℚ)) * (s.max_angle - s.min_angle) * (1/2)
    let target_angle : ℚ := s.center_angle - angle_change
    let angle_diff : ℚ :=
      pymax (-s.max_speed) (pymin s.max_speed (target_angle - s.current_angle))
    let new_angle : ℚ := s.current_angle + angle_diff * s.smoothing_factor
    (set_angle s new_angle, .moved)

/-- `ServoController.center_servo()`: `set_angle(center_angle)`. -/
def center_servo (s : ServoState) : ServoState :=
  set_angle s s.center_angle

/-- Modelled from the spec (§4.2 `compute_next_angle`), for comparison
with `track_face`: real division `frame_width / 2`, a dead-zone early
return, a proportional target CLAMPED to `[min_angle, max_angle]`
(step 4), slew-rate clamping of the difference, and a final clamp of the
smoothed angle. -/
def compute_next_angle_spec (s : ServoState) (target_center_x frame_width : Int) :
    ServoState :=
  let offset : ℚ := (target_center_x : ℚ) - (frame_width : ℚ) / 2
  if |offset| < (s.dead_zone : ℚ) then s
  else
    let angle_change : ℚ :=
      (offset / ((frame_width : ℚ) / 2)) * (s.max_angle - s.min_angle) * (1/2)
    let target : ℚ :=
      pymax s.min_angle (pymin s.max_angle (s.center_angle - angle_change))
    let diff : ℚ :=
      pymax (-s.max_speed) (pymin s.max_speed (target - s.current_angle))
    let next : ℚ :=
      pymax s.min_angle (pymin s.max_angle (s.current_angle + diff * s.smoothing_factor))
    { s with current_angle := next }

/-- A detected face bounding box `(x, y, w, h)` as delivered by
`detectMultiScale`. -/
structure Box where
  x : Int
  y : Int
  w : Int
  h : Int
deriving DecidableEq, Repr

/-- Pixel area `w * h`, the key of `max(faces, key=lambda x: x[2] * x[3])`. -/
def Box.area (b : Box) : Int := b.w * b.h

/-- One comparison step of Python's `max` with a key: the running value
is replaced only when the new element's key is strictly greater. -/
def pickLarger (acc c : Box) : Box :=
  if acc.area < c.area then c else acc

/-- The largest-face selection in `FaceTrackerThread.run`:
`max(faces, key=lambda x: x[2] * x[3])` when faces exist, no target when
the detection list is empty. -/
def selectLargest : List Box → Option Box
  | [] => none
  | b :: bs => some (bs.foldl pickLarger b)

/-- The Qt signals a tick of `FaceTrackerThread.run` can emit:
`servo_angle_update.emit(current_angle)` and
`frame_ready.emit(frame, faces_list)` (tracked here by the number of
detected faces). -/
inductive Event
  | servo_angle_update (angle : ℚ)
  | frame_ready (faceCount : Nat)
deriving DecidableEq, Repr

/-- One iteration of the `while self.running` loop body in
`FaceTrackerThread.run`, given the detected faces of the frame: when at
least one face exists, select the largest, call `track_face` on its
center (`x + w // 2`, `y + h // 2`) and emit `servo_angle_update`; in
every case emit `frame_ready` afterwards.  A `ZeroDivisionError` escaping
`track_face` aborts the iteration before any emit. -/
def run_tick (s : ServoState) (faces : List Box) (frame_width frame_height : Int) :
    ServoState × List Event :=
  match selectLargest faces with
  | none => (s, [.frame_ready faces.length])
  | some b =>
    let face_center_x : Int := b.x + Int.fdiv b.w 2
    let face_center_y : Int := b.y + Int.fdiv b.h 2
    let r := track_face s face_center_x face_center_y frame_width frame_height
    match r.2 with
    | .zeroDivError => (r.1, [])
    | _ => (r.1, [.servo_angle_update r.1.current_angle, .frame_ready faces.length])

/-- The application-level state the shutdown paths touch: the servo
state, the thread's `running` flag, whether the camera capture is open,
and whether the GPIO actuator resource has been released by
`ServoController.cleanup`. -/
structure AppState where
  servo : ServoState
  running : Bool
  cap_open : Bool
  gpio_released : Bool
deriving DecidableEq, Repr

/-- `FaceTrackerThread.stop()`: set `running = False`, release the
camera capture, wait for the thread.  It does not touch the servo. -/
def thread_stop (a : AppState) : AppState :=
  { a with running := false, cap_open := false }

/-- `ServoController.cleanup()`: stop PWM and run `GPIO.cleanup()`,
releasing the actuator resource. -/
def servo_cleanup (a : AppState) : AppState :=
  { a with gpio_released := true }

/-- `FaceTrackerServoApp.stop_tracking()`: stop the tracker thread (the
rest of the method is UI-only). -/
def stop_tracking (a : AppState) : AppState :=
  thread_stop a

/-- `FaceTrackerServoApp.closeEvent()`: `stop_tracking()` then
`ServoController.cleanup()`. -/
def close_event (a : AppState) : AppState :=
  servo_cleanup (stop_tracking a)

/-- The states a `ServoController` constructed with angles `mn`, `mx`,
`c` can reach through its mutating operations: `set_angle` (slider path),
`track_face` (tracking path) and `center_servo`. -/
inductive Reachable (mn mx c : ℚ) : ServoState → Prop
  | init (pin : Int) : Reachable mn mx c (mkServoController pin mn mx c)
  | step_set (s : ServoState) (a : ℚ) :
      Reachable mn mx c s → Reachable mn mx c (set_angle s a)
  | step_track (s : ServoState) (fx fy fw fh : Int) :
      Reachable mn mx c s → Reachable mn mx c (track_face s fx fy fw fh).1
  | step_center (s : ServoState) :
      Reachable mn mx c s → Reachable mn mx c (center_servo s)

/-- `track_face` either returns its state unchanged (dead zone or
division error) or goes through `set_angle`. -/
lemma track_face_cases (s : ServoState) (fx fy fw fh : Int) :
    (track_face s fx fy fw fh).1 = s ∨
      ∃ a, (track_face s fx fy fw fh).1 = set_angle s a := by
  unfold track_face
  dsimp only
  split
  · exact Or.inl rfl
  · split
    · exact Or.inl rfl
    · exact Or.inr ⟨_, rfl⟩

/-- `set_angle` changes only `current_angle`. -/
lemma set_angle_fields (s : ServoState) (a : ℚ) :
    (set_angle s a).min_angle = s.min_angle ∧
      (set_angle s a).max_angle = s.max_angle ∧
      (set_angle s a).center_angle = s.center_angle ∧
      (set_angle s a).smoothing_factor = s.smoothing_factor ∧
      (set_angle s a).dead_zone = s.dead_zone ∧
      (set_angle s a).max_speed = s.max_speed :=
  ⟨rfl, rfl, rfl, rfl, rfl, rfl⟩

/-- The clamped value written by `set_angle` stays inside
`[min_angle, max_angle]` whenever that interval is nonempty. -/
lemma set_angle_bounds (s : ServoState) (a : ℚ) (h : s.min_angle ≤ s.max_angle) :
    s.min_angle ≤ (set_angle s a).current_angle ∧
      (set_angle s a).current_angle ≤ s.max_angle := by
  have hc : (set_angle s a).current_angle =
      max s.min_angle (min s.max_angle a) := by
    simp only [set_angle, pymax_eq_max, pymin_eq_min]
  rw [hc]
  exact ⟨le_max_left _ _, max_le h (min_le_left _ _)⟩

/-- Clamping to `[lo, hi]` never moves a value further from a point `t`
already inside `[lo, hi]`. -/
lemma clamp_dist_le (lo hi t x : ℚ) (h1 : lo ≤ t) (h2 : t ≤ hi) :
    |max lo (min hi x) - t| ≤ |x - t| := by
  rcases le_total x lo with hx | hx
  · have hxh : x ≤ hi := le_trans hx (le_trans h1 h2)
    rw [min_eq_right hxh, max_eq_left hx,
      abs_of_nonpos (by linarith), abs_of_nonpos (by linarith)]
    linarith
  · rcases le_total hi x with hx2 | hx2
    · rw [min_eq_left hx2, max_eq_right (le_trans h1 h2),
        abs_of_nonneg (by linarith), abs_of_nonneg (by linarith)]
      linarith
    · rw [min_eq_right hx2, max_eq_right hx]

/-- Combined inductive invariant for reachable servo states: the
configuration fields keep their construction values, and when the
construction is valid (`mn ≤ c ≤ mx`) the current angle stays in
`[mn, mx]`. -/
lemma reachable_spec (mn mx c : ℚ) (s : ServoState) (hr : Reachable mn mx c s) :
    s.min_angle = mn ∧ s.max_angle = mx ∧
      (mn ≤ c → c ≤ mx → mn ≤ s.current_angle ∧ s.current_angle ≤ mx) := by
  induction hr with
  | init pin => exact ⟨rfl, rfl, fun h1 h2 => ⟨h1, h2⟩⟩
  | step_set s a hr ih =>
    refine ⟨ih.1, ih.2.1, fun h1 h2 => ?_⟩
    have hb := set_angle_bounds s a (by rw [ih.1, ih.2.1]; exact le_trans h1 h2)
    rw [ih.1, ih.2.1] at hb
    exact hb
  | step_track s fx fy fw fh hr ih =>
    rcases track_face_cases s fx fy fw fh with hcase | ⟨a, hcase⟩
    · rw [hcase]; exact ih
    · rw [hcase]
      refine ⟨ih.1, ih.2.1, fun h1 h2 => ?_⟩
      have hb := set_angle_bounds s a (by rw [ih.1, ih.2.1]; exact le_trans h1 h2)
      rw [ih.1, ih.2.1] at hb
      exact hb
  | step_center s hr ih =>
    refine ⟨ih.1, ih.2.1, fun h1 h2 => ?_⟩
    have hb := set_angle_bounds s s.center_angle
      (by rw [ih.1, ih.2.1]; exact le_trans h1 h2)
    rw [ih.1, ih.2.1] at hb
    exact hb

/-- Fold invariant for Python `max` with the area key: the fold either
keeps the accumulator (nothing strictly larger follows) or returns the
first strict improvement, with everything before it strictly smaller and
everything after it no larger. -/
lemma foldl_pickLarger_spec (bs : List Box) : ∀ acc : Box,
    (bs.foldl pickLarger acc = acc ∧ ∀ c ∈ bs, c.area ≤ acc.area) ∨
      (∃ l₁ l₂, bs = l₁ ++ (bs.foldl pickLarger acc) :: l₂ ∧
        acc.area < (bs.foldl pickLarger acc).area ∧
        (∀ c ∈ l₁, c.area < (bs.foldl pickLarger acc).area) ∧
        (∀ c ∈ l₂, c.area ≤ (bs.foldl pickLarger acc).area)) := by
  induction bs with
  | nil =>
    intro acc
    left
    exact ⟨rfl, by simp⟩
  | cons c bs ih =>
    intro acc
    by_cases hc : acc.area < c.area
    · have hstep : (c :: bs).foldl pickLarger acc = bs.foldl pickLarger c := by
        simp [List.foldl_cons, pickLarger, hc]
      rcases ih c with ⟨heq, hall⟩ | ⟨l₁, l₂, hsplit, hlt, hl₁, hl₂⟩
      · right
        refine ⟨[], bs, ?_, ?_, ?_, ?_⟩
        · simp only [hstep, heq, List.nil_append]
        · simp only [hstep, heq]; exact hc
        · simp
        · simp only [hstep, heq]; exact hall
      · right
        refine ⟨c :: l₁, l₂, ?_, ?_, ?_, ?_⟩
        · simp only [hstep, List.cons_append]
          exact congrArg (List.cons c) hsplit
        · simp only [hstep]; exact lt_trans hc hlt
        · simp only [hstep]
          intro d hd
          rcases List.mem_cons.mp hd with hd | hd
          · rw [hd]; exact hlt
          · exact hl₁ d hd
        · simp only [hstep]; exact hl₂
    · have hstep : (c :: bs).foldl pickLarger acc = bs.foldl pickLarger acc := by
        simp [List.foldl_cons, pickLarger, hc]
      rcases ih acc with ⟨heq, hall⟩ | ⟨l₁, l₂, hsplit, hlt, hl₁, hl₂⟩
      · left
        refine ⟨by simp only [hstep, heq], ?_⟩
        intro d hd
        rcases List.mem_cons.mp hd with hd | hd
        · rw [hd]; exact not_lt.mp hc
        · exact hall d hd
      · right
        refine ⟨c :: l₁, l₂, ?_, ?_, ?_, ?_⟩
        · simp only [hstep, List.cons_append]
          exact congrArg (List.cons c) hsplit
        · simp only [hstep]; exact hlt
        · simp only [hstep]
          intro d hd
          rcases List.mem_cons.mp hd with hd | hd
          · rw [hd]; exact lt_of_le_of_lt (not_lt.mp hc) hlt
          · exact hl₁ d hd
        · simp only [hstep]; exact hl₂

/-- C1 (amended): outside the dead zone (and away from the
`frame_center_x = 0` division error), `track_face` computes the frame
center by floor division `frame_width // 2`, the proportional target
`center_angle - (offset/frame_center)*(max_angle-min_angle)*0.5` WITHOUT
clamping it, clamps the difference to `±max_speed`, and stores the
smoothed angle through `set_angle`'s final clamp; on the spec's example
(frame 640, config 0/180/90, current 90, target 400) the result is 89.4
within 1e-6. -/
theorem c1_track_face_algorithm :
    (∀ (s : ServoState) (fx fy fw fh : Int),
      ¬ |fx - Int.fdiv fw 2| < s.dead_zone → Int.fdiv fw 2 ≠ 0 →
      track_face s fx fy fw fh =
        (set_angle s (s.current_angle +
          pymax (-s.max_speed) (pymin s.max_speed
            ((s.center_angle -
                ((fx - Int.fdiv fw 2 : Int) : ℚ) / ((Int.fdiv fw 2 : Int) : ℚ) *
                  (s.max_angle - s.min_angle) * (1/2)) -
              s.current_angle)) * s.smoothing_factor),
          TickOutcome.moved)) ∧
    447/5 - 1/1000000 <
        (track_face (mkServoController 18 0 180 90) 400 0 640 480).1.current_angle ∧
      (track_face (mkServoController 18 0 180 90) 400 0 640 480).1.current_angle <
        447/5 + 1/1000000 := by
  refine ⟨?_,
    by norm_num [track_face, set_angle, mkServoController, pymax, pymin, Int.fdiv],
    by norm_num [track_face, set_angle, mkServoController, pymax, pymin, Int.fdiv]⟩
  intro s fx fy fw fh h1 h2
  simp only [track_face]
  rw [if_neg h1, if_neg h2]

/-- C1 witness: a concrete out-of-dead-zone tick (state centered at 170,
current angle 179, face at the left edge of a 640-wide frame), where the
amended formula yields 179.6. -/
theorem c1_track_face_algorithm_witness :
    (track_face (set_angle (mkServoController 18 0 180 170) 179)
        0 0 640 480).1.current_angle = 898/5 := by
  have h := c1_track_face_algorithm.1 (set_angle (mkServoController 18 0 180 170) 179)
    0 0 640 480 (by decide) (by decide)
  rw [h]
  norm_num [set_angle, mkServoController, pymax, pymin, Int.fdiv]

/-- C1 counterexample: `track_face` does not follow the spec's algorithm
exactly — the spec clamps the proportional target to
`[min_angle, max_angle]` before slew-rate limiting, the code does not.
With configuration 0/180/center 170, current angle 179 and a face at
pixel 0 of a 640-wide frame, the code yields 179.6 while the spec's
algorithm yields 179.3. -/
theorem c1_spec_clamp_divergence :
    (track_face (set_angle (mkServoController 18 0 180 170) 179) 0 0 640 480).1.current_angle ≠
      (compute_next_angle_spec (set_angle (mkServoController 18 0 180 170) 179)
          0 640).current_angle := by
  norm_num [track_face, compute_next_angle_spec, set_angle, mkServoController,
    pymax, pymin, Int.fdiv]

/-- C2: for a servo constructed with a valid configuration
(`min_angle ≤ center_angle ≤ max_angle`), every state reachable through
`set_angle`, `track_face` and `center_servo` satisfies
`min_angle ≤ current_angle ≤ max_angle`, and the angle `track_face`
stores on any further tick also lies in `[min_angle, max_angle]`. -/
theorem c2_angle_invariant (mn mx c : ℚ) (s : ServoState)
    (h1 : mn ≤ c) (h2 : c ≤ mx) (hr : Reachable mn mx c s) :
    (mn ≤ s.current_angle ∧ s.current_angle ≤ mx) ∧
      ∀ fx fy fw fh : Int,
        mn ≤ (track_face s fx fy fw fh).1.current_angle ∧
          (track_face s fx fy fw fh).1.current_angle ≤ mx := by
  refine ⟨(reachable_spec mn mx c s hr).2.2 h1 h2, fun fx fy fw fh => ?_⟩
  exact (reachable_spec mn mx c _ (Reachable.step_track s fx fy fw fh hr)).2.2 h1 h2

/-- C2 witness: the freshly constructed default controller (0/180/90)
satisfies the invariant. -/
theorem c2_angle_invariant_witness :
    (0 : ℚ) ≤ (mkServoController 18 0 180 90).current_angle ∧
      (mkServoController 18 0 180 90).current_angle ≤ 180 :=
  (c2_angle_invariant 0 180 90 (mkServoController 18 0 180 90)
    (by norm_num) (by norm_num) (Reachable.init 18)).1

/-- C3 (amended): `track_face` has no `frame_width ≤ 0` guard and no
`InvalidFrameGeometry` error.  For `frame_width ≤ 0`: inside the dead
zone the tick is silently skipped; outside it, if `frame_width // 2 = 0`
a `ZeroDivisionError` aborts the tick with the state unmutated; for the
remaining (negative-width) inputs the tick proceeds and mutates
`current_angle`. -/
theorem c3_no_geometry_guard (s : ServoState) (fx fy fw fh : Int) (hw : fw ≤ 0) :
    (|fx - Int.fdiv fw 2| < s.dead_zone →
      track_face s fx fy fw fh = (s, TickOutcome.skipped)) ∧
    (¬ |fx - Int.fdiv fw 2| < s.dead_zone → Int.fdiv fw 2 = 0 →
      track_face s fx fy fw fh = (s, TickOutcome.zeroDivError)) ∧
    (¬ |fx - Int.fdiv fw 2| < s.dead_zone → Int.fdiv fw 2 ≠ 0 →
      (track_face s fx fy fw fh).2 = TickOutcome.moved) := by
  refine ⟨fun h => ?_, fun h hz => ?_, fun h hz => ?_⟩
  · simp only [track_face]
    rw [if_pos h]
  · simp only [track_face]
    rw [if_neg h, if_pos hz]
  · simp only [track_face]
    rw [if_neg h, if_neg hz]

/-- C3 witness: on a zero-width frame with the face 25 pixels from the
(degenerate) center, the division by `frame_width // 2 = 0` is reached
and the state is left unchanged. -/
theorem c3_no_geometry_guard_witness :
    track_face (mkServoController 18 0 180 90) 25 0 0 480 =
      (mkServoController 18 0 180 90, TickOutcome.zeroDivError) :=
  (c3_no_geometry_guard (mkServoController 18 0 180 90) 25 0 0 480
    (by decide)).2.1 (by decide) (by decide)

/-- C3 counterexample: with `frame_width = -640 ≤ 0` and a face at pixel
0, no error is signalled, the tick is not skipped, and `current_angle`
is mutated (from 90 to 90.6). -/
theorem c3_negative_width_mutates :
    (track_face (mkServoController 18 0 180 90) 0 0 (-640) 480).1.current_angle ≠
        (mkServoController 18 0 180 90).current_angle ∧
      (track_face (mkServoController 18 0 180 90) 0 0 (-640) 480).2 =
        TickOutcome.moved ∧
      (-640 : Int) ≤ 0 := by
  have hfd : Int.fdiv (-640) 2 = -320 := by decide
  refine ⟨?_, by decide, by decide⟩
  norm_num [track_face, set_angle, mkServoController, pymax, pymin, hfd]

/-- C4 (amended): `stop()` (and `stop_tracking`, which calls it) only
clears the running flag and releases the camera capture; it leaves the
servo state — in particular `current_angle` — untouched and does not
release the GPIO actuator resource.  The actuator is released only by
`ServoController.cleanup`, which runs on application close
(`closeEvent`), and the servo is centered at loop start, not at stop. -/
theorem c4_stop_leaves_servo (a : AppState) :
    (stop_tracking a).servo = a.servo ∧
      (stop_tracking a).running = false ∧
      (stop_tracking a).cap_open = false ∧
      (stop_tracking a).gpio_released = a.gpio_released ∧
      (close_event a).gpio_released = true :=
  ⟨rfl, rfl, rfl, rfl, rfl⟩

/-- A concrete running application state whose servo sits at 100°, used
to exhibit the shutdown behaviour. -/
def appAt100 : AppState :=
  { servo := set_angle (mkServoController 18 0 180 90) 100
    running := true
    cap_open := true
    gpio_released := false }

/-- C4 counterexample: after `stop_tracking` completes on a state with
the servo at 100°, `current_angle` is still 100 ≠ `center_angle` = 90
and the actuator resource is still not released. -/
theorem c4_stop_not_centered :
    (stop_tracking appAt100).servo.current_angle ≠
        (stop_tracking appAt100).servo.center_angle ∧
      (stop_tracking appAt100).gpio_released = false := by
  constructor
  · norm_num [stop_tracking, thread_stop, appAt100, set_angle, mkServoController,
      pymax, pymin]
  · rfl

/-- C5 (amended): a tick of `FaceTrackerThread.run` emits
`servo_angle_update` only when at least one face was detected (the emit
sits inside the `if len(faces) > 0` block); a face-less tick emits only
`frame_ready`. -/
theorem c5_angle_emit_requires_face (s : ServoState) (faces : List Box)
    (fw fh : Int) :
    (faces = [] → (run_tick s faces fw fh).2 = [Event.frame_ready 0]) ∧
      ∀ b, selectLargest faces = some b →
        (track_face s (b.x + Int.fdiv b.w 2) (b.y + Int.fdiv b.h 2) fw fh).2 ≠
          TickOutcome.zeroDivError →
        (run_tick s faces fw fh).2 =
          [Event.servo_angle_update
              ((track_face s (b.x + Int.fdiv b.w 2) (b.y + Int.fdiv b.h 2)
                  fw fh).1.current_angle),
            Event.frame_ready faces.length] := by
  constructor
  · intro hempty
    subst hempty
    rfl
  · intro b hsel hout
    simp only [run_tick, hsel]

/-- C5 witness: a tick with one face centered in the frame emits the
angle notification followed by the frame notification. -/
theorem c5_angle_emit_requires_face_witness :
    (run_tick (mkServoController 18 0 180 90)
        [{ x := 300, y := 200, w := 40, h := 40 }] 640 480).2 =
      [Event.servo_angle_update 90, Event.frame_ready 1] :=
  (c5_angle_emit_requires_face (mkServoController 18 0 180 90)
      [{ x := 300, y := 200, w := 40, h := 40 }] 640 480).2
    { x := 300, y := 200, w := 40, h := 40 } rfl (by decide)

/-- C5 counterexample: a processed tick with no detected faces publishes
no angle notification — its full event list is just the frame event. -/
theorem c5_no_face_no_angle_event :
    (run_tick (mkServoController 18 0 180 90) [] 640 480).2 =
      [Event.frame_ready 0] := by
  rfl

/-- C6: inside the dead zone (`|face_x - frame_width // 2| < dead_zone`)
`track_face` returns early with the state unchanged and no `set_angle`
call; consequently repeated ticks with the face exactly at
`frame_width // 2` leave the angle unchanged forever. -/
theorem c6_dead_zone_stable (s : ServoState) (fx fy fw fh : Int)
    (h : |fx - Int.fdiv fw 2| < s.dead_zone) :
    track_face s fx fy fw fh = (s, TickOutcome.skipped) ∧
      ∀ n : ℕ,
        (fun t => (track_face t (Int.fdiv fw 2) fy fw fh).1)^[n] s = s := by
  have hz : (0 : Int) < s.dead_zone := lt_of_le_of_lt (abs_nonneg _) h
  have hstep : track_face s (Int.fdiv fw 2) fy fw fh = (s, TickOutcome.skipped) := by
    simp only [track_face]
    rw [if_pos (by simpa using hz)]
  constructor
  · simp only [track_face]
    rw [if_pos h]
  · intro n
    induction n with
    | zero => rfl
    | succ n ihn =>
      rw [Function.iterate_succ_apply', ihn]
      exact congrArg Prod.fst hstep

/-- C6 witness: with the default configuration and a 640-wide frame, a
face at pixel 320 (offset 0) leaves the state unchanged. -/
theorem c6_dead_zone_stable_witness :
    track_face (mkServoController 18 0 180 90) 320 0 640 480 =
      (mkServoController 18 0 180 90, TickOutcome.skipped) :=
  (c6_dead_zone_stable (mkServoController 18 0 180 90) 320 0 640 480
    (by decide)).1

/-- C7: on every tick, the change `track_face` makes to the stored angle
is bounded by `max_speed * smoothing_factor`, for any state whose
current angle satisfies the range invariant and whose tuning constants
are nonnegative. -/
theorem c7_per_tick_change_bound (s : ServoState) (fx fy fw fh : Int)
    (h1 : s.min_angle ≤ s.current_angle) (h2 : s.current_angle ≤ s.max_angle)
    (h3 : 0 ≤ s.smoothing_factor) (h4 : 0 ≤ s.max_speed) :
    |(track_face s fx fy fw fh).1.current_angle - s.current_angle| ≤
      s.max_speed * s.smoothing_factor := by
  have hnn : 0 ≤ s.max_speed * s.smoothing_factor := mul_nonneg h4 h3
  have key : ∀ δ : ℚ,
      |pymax s.min_angle (pymin s.max_angle
          (s.current_angle + pymax (-s.max_speed) (pymin s.max_speed δ) *
            s.smoothing_factor)) - s.current_angle| ≤
        s.max_speed * s.smoothing_factor := by
    intro δ
    simp only [pymax_eq_max, pymin_eq_min]
    have hstep1 :
        |max s.min_angle (min s.max_angle
            (s.current_angle + max (-s.max_speed) (min s.max_speed δ) *
              s.smoothing_factor)) - s.current_angle| ≤
          |(s.current_angle + max (-s.max_speed) (min s.max_speed δ) *
              s.smoothing_factor) - s.current_angle| :=
      clamp_dist_le s.min_angle s.max_angle s.current_angle _ h1 h2
    have hcancel :
        (s.current_angle + max (-s.max_speed) (min s.max_speed δ) *
            s.smoothing_factor) - s.current_angle =
          max (-s.max_speed) (min s.max_speed δ) * s.smoothing_factor := by
      ring
    rw [hcancel] at hstep1
    have habs : |max (-s.max_speed) (min s.max_speed δ) * s.smoothing_factor| =
        |max (-s.max_speed) (min s.max_speed δ)| * s.smoothing_factor := by
      rw [abs_mul, abs_of_nonneg h3]
    have hdbound : |max (-s.max_speed) (min s.max_speed δ)| ≤ s.max_speed :=
      abs_le.mpr ⟨le_max_left _ _, max_le (by linarith) (min_le_left _ _)⟩
    calc |max s.min_angle (min s.max_angle
            (s.current_angle + max (-s.max_speed) (min s.max_speed δ) *
              s.smoothing_factor)) - s.current_angle|
        ≤ |max (-s.max_speed) (min s.max_speed δ)| * s.smoothing_factor := by
          rw [← habs]; exact hstep1
      _ ≤ s.max_speed * s.smoothing_factor :=
          mul_le_mul_of_nonneg_right hdbound h3
  simp only [track_face]
  split
  · simpa using hnn
  · split
    · simpa using hnn
    · simpa [set_angle] using key _

/-- C7 witness: the spec's example tick (face at 400 in a 640-wide
frame, default configuration) moves the angle by 0.6 = 2 · 0.3. -/
theorem c7_per_tick_change_bound_witness :
    |(track_face (mkServoController 18 0 180 90) 400 0 640 480).1.current_angle -
        (mkServoController 18 0 180 90).current_angle| ≤
      (mkServoController 18 0 180 90).max_speed *
        (mkServoController 18 0 180 90).smoothing_factor :=
  c7_per_tick_change_bound (mkServoController 18 0 180 90) 400 0 640 480
    (by norm_num [mkServoController]) (by norm_num [mkServoController])
    (by norm_num [mkServoController]) (by norm_num [mkServoController])

/-- C8: the target selector returns no box exactly on the empty
sequence; on a nonempty sequence it returns a box of maximum area that
is the FIRST such box in input order (everything before it is strictly
smaller); and on `[(0,0,30,30),(10,10,50,50)]` it selects the second
box.  Purity is inherent in the functional model: the input list is
never modified. -/
theorem c8_largest_box_selection :
    (∀ l : List Box, selectLargest l = none ↔ l = []) ∧
      (∀ (l : List Box) (r : Box), selectLargest l = some r →
        r ∈ l ∧ (∀ c ∈ l, c.area ≤ r.area) ∧
          ∃ l₁ l₂, l = l₁ ++ r :: l₂ ∧ ∀ c ∈ l₁, c.area < r.area) ∧
      selectLargest [{ x := 0, y := 0, w := 30, h := 30 },
          { x := 10, y := 10, w := 50, h := 50 }] =
        some { x := 10, y := 10, w := 50, h := 50 } := by
  refine ⟨?_, ?_, rfl⟩
  · intro l
    cases l with
    | nil => simp [selectLargest]
    | cons b bs => simp [selectLargest]
  · intro l r hsel
    cases l with
    | nil => simp [selectLargest] at hsel
    | cons b bs =>
      have hr : bs.foldl pickLarger b = r := by
        simpa [selectLargest] using hsel
      rcases foldl_pickLarger_spec bs b with ⟨heq, hall⟩ | ⟨l₁, l₂, hsplit, hlt, hl₁, hl₂⟩
      · rw [← hr, heq]
        refine ⟨List.mem_cons_self b bs, ?_, [], bs, rfl, by simp⟩
        intro c hc
        rcases List.mem_cons.mp hc with hc | hc
        · exact le_of_eq (congrArg Box.area hc)
        · exact hall c hc
      · rw [hr] at hsplit hlt hl₁ hl₂
        refine ⟨?_, ?_, b :: l₁, l₂, ?_, ?_⟩
        · exact List.mem_cons_of_mem b (by rw [hsplit]; simp)
        · intro c hc
          rcases List.mem_cons.mp hc with hc | hc
          · rw [hc]; exact le_of_lt hlt
          · rw [hsplit] at hc
            rcases List.mem_append.mp hc with hc | hc
            · exact le_of_lt (hl₁ c hc)
            · rcases List.mem_cons.mp hc with hc | hc
              · exact le_of_eq (congrArg Box.area hc)
              · exact hl₂ c hc
        · rw [List.cons_append]
          exact congrArg (List.cons b) hsplit
        · intro c hc
          rcases List.mem_cons.mp hc with hc | hc
          · rw [hc]; exact hlt
          · exact hl₁ c hc

/-- C8 witness: the spec's example, instantiated in the first-maximum
characterisation. -/
theorem c8_largest_box_selection_witness :
    ({ x := 10, y := 10, w := 50, h := 50 } : Box) ∈
        [({ x := 0, y := 0, w := 30, h := 30 } : Box),
          { x := 10, y := 10, w := 50, h := 50 }] ∧
      (∀ c ∈ [({ x := 0, y := 0, w := 30, h := 30 } : Box),
          { x := 10, y := 10, w := 50, h := 50 }],
        c.area ≤ ({ x := 10, y := 10, w := 50, h := 50 } : Box).area) ∧
      ∃ l₁ l₂,
        [({ x := 0, y := 0, w := 30, h := 30 } : Box),
            { x := 10, y := 10, w := 50, h := 50 }] =
          l₁ ++ ({ x := 10, y := 10, w := 50, h := 50 } : Box) :: l₂ ∧
        ∀ c ∈ l₁, c.area < ({ x := 10, y := 10, w := 50, h := 50 } : Box).area :=
  c8_largest_box_selection.2.1
    [{ x := 0, y := 0, w := 30, h := 30 }, { x := 10, y := 10, w := 50, h := 50 }]
    { x := 10, y := 10, w := 50, h := 50 } rfl

/-- C9: for any configuration with `0 ≤ min_angle`, `max_angle ≤ 180`
and a nonempty angle interval, the hardware path of `set_angle` issues
exactly the duty cycle `(clamped_angle/180)*10 + 2.5` followed by the
zeroing command, and that duty cycle lies in `[0, 100]`. -/
theorem c9_duty_cycle_command (s : ServoState) (angle : ℚ)
    (h0 : 0 ≤ s.min_angle) (h180 : s.max_angle ≤ 180)
    (hmm : s.min_angle ≤ s.max_angle) :
    set_angle_commands s angle =
        [(pymax s.min_angle (pymin s.max_angle angle) / 180) * 10 + 5/2, 0] ∧
      0 ≤ (pymax s.min_angle (pymin s.max_angle angle) / 180) * 10 + 5/2 ∧
      (pymax s.min_angle (pymin s.max_angle angle) / 180) * 10 + 5/2 ≤ 100 := by
  have hcl : 0 ≤ pymax s.min_angle (pymin s.max_angle angle) ∧
      pymax s.min_angle (pymin s.max_angle angle) ≤ 180 := by
    rw [pymax_eq_max, pymin_eq_min]
    exact ⟨le_trans h0 (le_max_left _ _),
      max_le (le_trans hmm h180) (le_trans (min_le_left _ _) h180)⟩
  refine ⟨rfl, ?_, ?_⟩
  · have hq : 0 ≤ pymax s.min_angle (pymin s.max_angle angle) / 180 :=
      div_nonneg hcl.1 (by norm_num)
    nlinarith [hq]
  · have hq : pymax s.min_angle (pymin s.max_angle angle) / 180 ≤ 1 := by
      rw [div_le_one (by norm_num : (0:ℚ) < 180)]
      exact hcl.2
    nlinarith [hq]

/-- C9 witness: commanding 180° with the default configuration issues a
12.5% duty cycle and then zeroes the signal. -/
theorem c9_duty_cycle_command_witness :
    set_angle_commands (mkServoController 18 0 180 90) 180 = [25/2, 0] := by
  have h := (c9_duty_cycle_command (mkServoController 18 0 180 90) 180
    (by norm_num [mkServoController]) (by norm_num [mkServoController])
    (by norm_num [mkServoController])).1
  rw [h]
  norm_num [mkServoController, pymax, pymin]

/-- C10: `track_face` never reads `face_y` or `frame_height` — two calls
that agree on the state, `face_x` and `frame_width` produce identical
results (state and outcome, hence also any derived actuator command)
for arbitrary vertical inputs. -/
theorem c10_vertical_independence (s : ServoState) (fx fw fy fy2 fh fh2 : Int) :
    track_face s fx fy fw fh = track_face s fx fy2 fw fh2 := rfl

end FaceTrackerServo
